import Mathlib

/-!
# Verification of the order-lifecycle core of the SARASWATHI TIFFINS client

Shallow embedding of `src/App.tsx`: the cart aggregator (`addToCart`,
`updateCartQuantity`), the pricing computation (duplicated at the CHECKOUT
view and in `handlePlaceOrder`), the order-submission pipeline with its
best-effort side effects, the realtime status watcher
(`triggerStatusNotification` and the subscription callback), and the
secret-admin tap counter.

Conventions of the embedding:
* JavaScript numbers that only ever hold non-negative integers (prices,
  quantities, timestamps, notification ids) are `ℕ`; the `delta` argument of
  `updateCartQuantity` may be negative and is `ℤ`.
* `Math.round(itemTotal * 0.05)` is embedded as round-half-up on the exact
  rational `itemTotal / 20`, i.e. `(itemTotal + 10) / 20` in `ℕ`; the link to
  `round` on `ℚ` is proved in the pricing theorem.
* React state updates in the source are copy-on-write (`map` with object
  spread, `filter`, array literals): no cart array is ever mutated in place,
  which the immutable embedding mirrors.
* External collaborators (`Store.getDeliveryFee`, `Store.generateOrderId`,
  `Date.now`, `Math.random`) are parameters of the embedded functions.
-/

/-- `MenuItem` from `types` (the `types.ts` file is not part of the sources;
its shape is modelled from the spec's data model: identity `id`, `name`,
`price` a non-negative integer currency unit). -/
structure MenuItem where
  id : String
  name : String
  price : ℕ
deriving DecidableEq, Repr

/-- `CartItem` from `types`: a `MenuItem` plus a `quantity`
(modelled from the spec's data model, `types.ts` not being in the sources). -/
structure CartItem where
  id : String
  name : String
  price : ℕ
  quantity : ℕ
deriving DecidableEq, Repr

/-- `{ ...item, quantity: q }` — spreading a `MenuItem` into a `CartItem`. -/
def CartItem.ofMenuItem (m : MenuItem) (q : ℕ) : CartItem :=
  { id := m.id, name := m.name, price := m.price, quantity := q }

/-- `addToCart` (`src/App.tsx` lines 173–181):
`prev.find(i => i.id === item.id)`; when found,
`prev.map(i => i.id === item.id ? { ...i, quantity: i.quantity + 1 } : i)`,
otherwise `[...prev, { ...item, quantity: 1 }]`. -/
def addToCart (cart : List CartItem) (item : MenuItem) : List CartItem :=
  if (cart.find? (fun i => i.id == item.id)).isSome then
    cart.map (fun i => if i.id = item.id then { i with quantity := i.quantity + 1 } else i)
  else
    cart ++ [CartItem.ofMenuItem item 1]

/-- `updateCartQuantity` (`src/App.tsx` lines 183–192):
`prev.map(item => item.id === itemId ? { ...item, quantity: Math.max(0, item.quantity + delta) } : item).filter(item => item.quantity > 0)`.
`Math.max(0, q + delta)` on integers is `(↑q + delta).toNat`. -/
def updateCartQuantity (cart : List CartItem) (itemId : String) (delta : ℤ) : List CartItem :=
  (cart.map (fun item =>
      if item.id = itemId then { item with quantity := ((item.quantity : ℤ) + delta).toNat }
      else item)).filter (fun item => decide (0 < item.quantity))

section CartLemmas

lemma find?_isSome_of_mem {cart : List CartItem} {item : MenuItem}
    (i : CartItem) (hi : i ∈ cart) (hid : i.id = item.id) :
    (cart.find? (fun j => j.id == item.id)).isSome := by
  rw [List.find?_isSome]
  exact ⟨i, hi, by simp [hid]⟩

lemma find?_isNone_of_not_mem {cart : List CartItem} {item : MenuItem}
    (h : ∀ i ∈ cart, i.id ≠ item.id) :
    ¬ (cart.find? (fun j => j.id == item.id)).isSome := by
  rw [List.find?_isSome]
  rintro ⟨i, hi, hid⟩
  exact h i hi (by simpa using hid)

end CartLemmas

/-- C5: `addToCart` appends a fresh quantity-1 entry when the id is absent;
when an entry with the item's id is present at position `k`, the result has
the same length, position `k` carries that entry with its quantity
incremented by 1, and every position whose entry has a different id is
unchanged (so the order of existing entries is preserved); and adding the
same item twice to an empty cart yields exactly one entry of quantity 2. -/
theorem addToCart_spec (cart : List CartItem) (item : MenuItem) :
    ((∀ i ∈ cart, i.id ≠ item.id) → addToCart cart item = cart ++ [CartItem.ofMenuItem item 1])
    ∧ (∀ k, (hk : k < cart.length) → cart[k].id = item.id →
        (addToCart cart item).length = cart.length
        ∧ (addToCart cart item)[k]? =
            some { cart[k] with quantity := cart[k].quantity + 1 }
        ∧ ∀ j, (hj : j < cart.length) → cart[j].id ≠ item.id →
            (addToCart cart item)[j]? = some cart[j])
    ∧ addToCart (addToCart [] item) item = [CartItem.ofMenuItem item 2] := by
  refine ⟨?_, ?_, ?_⟩
  · intro habs
    unfold addToCart
    rw [if_neg (find?_isNone_of_not_mem habs)]
  · intro k hk hkid
    have hsome : (cart.find? (fun j => j.id == item.id)).isSome :=
      find?_isSome_of_mem cart[k] (cart.getElem_mem hk) hkid
    unfold addToCart
    rw [if_pos hsome]
    refine ⟨by simp, ?_, ?_⟩
    · rw [List.getElem?_map, List.getElem?_eq_getElem hk]
      simp [hkid]
    · intro j hj hjid
      rw [List.getElem?_map, List.getElem?_eq_getElem hj]
      simp [hjid]
  · simp [addToCart, CartItem.ofMenuItem, List.find?]

section UpdateLemmas

/-- The per-entry function applied by `updateCartQuantity` before the
positivity filter. -/
def updEntry (itemId : String) (delta : ℤ) (item : CartItem) : CartItem :=
  if item.id = itemId then { item with quantity := ((item.quantity : ℤ) + delta).toNat }
  else item

lemma updateCartQuantity_eq (cart : List CartItem) (itemId : String) (delta : ℤ) :
    updateCartQuantity cart itemId delta =
      (cart.map (updEntry itemId delta)).filter (fun item => decide (0 < item.quantity)) := rfl

lemma updEntry_id (itemId : String) (delta : ℤ) (i : CartItem) :
    (updEntry itemId delta i).id = i.id := by
  unfold updEntry
  by_cases h : i.id = itemId <;> simp [h]

lemma updEntry_of_ne {itemId : String} {delta : ℤ} {i : CartItem} (h : i.id ≠ itemId) :
    updEntry itemId delta i = i := by
  unfold updEntry
  rw [if_neg h]

lemma update_noop (cart : List CartItem) (tid : String) (delta : ℤ)
    (hpos : ∀ i ∈ cart, 0 < i.quantity) (habs : ∀ i ∈ cart, i.id ≠ tid) :
    updateCartQuantity cart tid delta = cart := by
  have h1 : cart.map (updEntry tid delta) = cart := by
    calc cart.map (updEntry tid delta) = cart.map id :=
          List.map_congr_left (fun i hi => updEntry_of_ne (habs i hi))
      _ = cart := List.map_id cart
  rw [updateCartQuantity_eq, h1,
    List.filter_eq_self.mpr (fun i hi => by simpa using hpos i hi)]

lemma update_removal (cart : List CartItem) (tid : String) (delta : ℤ)
    (hpos : ∀ i ∈ cart, 0 < i.quantity)
    (hz : ∀ i ∈ cart, i.id = tid → ((i.quantity : ℤ) + delta).toNat = 0) :
    updateCartQuantity cart tid delta = cart.filter (fun i => decide (i.id ≠ tid)) := by
  induction cart with
  | nil => rfl
  | cons i xs ih =>
    have hpos' : ∀ j ∈ xs, 0 < j.quantity := fun j hj => hpos j (List.mem_cons_of_mem _ hj)
    have hz' : ∀ j ∈ xs, j.id = tid → ((j.quantity : ℤ) + delta).toNat = 0 :=
      fun j hj => hz j (List.mem_cons_of_mem _ hj)
    rw [updateCartQuantity_eq, List.map_cons, List.filter_cons, List.filter_cons]
    rw [updateCartQuantity_eq] at ih
    by_cases hid : i.id = tid
    · have h0 : (updEntry tid delta i).quantity = 0 := by
        unfold updEntry
        rw [if_pos hid]
        exact hz i (List.mem_cons_self i xs) hid
      simp [h0, hid, ih hpos' hz']
    · have hkeep : 0 < (updEntry tid delta i).quantity := by
        rw [updEntry_of_ne hid]
        exact hpos i (List.mem_cons_self i xs)
      simp [updEntry_of_ne hid] at hkeep ⊢
      simp [hkeep, hid, ih hpos' hz']

lemma update_map (cart : List CartItem) (tid : String) (delta : ℤ)
    (hpos : ∀ i ∈ cart, 0 < i.quantity)
    (hp : ∀ i ∈ cart, i.id = tid → 0 < ((i.quantity : ℤ) + delta).toNat) :
    updateCartQuantity cart tid delta = cart.map (updEntry tid delta) := by
  rw [updateCartQuantity_eq]
  apply List.filter_eq_self.mpr
  intro a ha
  obtain ⟨i, hi, rfl⟩ := List.mem_map.mp ha
  by_cases hid : i.id = tid
  · have := hp i hi hid
    unfold updEntry
    rw [if_pos hid]
    simpa using this
  · rw [updEntry_of_ne hid]
    simpa using hpos i hi

end UpdateLemmas

/-- C6: for carts with all quantities positive, `updateCartQuantity` is a
no-op when no entry has the target id; it never leaves an entry of quantity
≤ 0; when the clamped quantity `max(0, quantity + delta)` reaches 0 the
matching entry is removed entirely (other entries and their order kept);
and when the clamped quantity stays positive, the matching entry's quantity
becomes `max(0, quantity + delta)` while every other position is
unchanged. -/
theorem updateCartQuantity_spec (cart : List CartItem) (tid : String) (delta : ℤ)
    (hpos : ∀ i ∈ cart, 0 < i.quantity) :
    ((∀ i ∈ cart, i.id ≠ tid) → updateCartQuantity cart tid delta = cart)
    ∧ (∀ i ∈ updateCartQuantity cart tid delta, 0 < i.quantity)
    ∧ ((∀ i ∈ cart, i.id = tid → ((i.quantity : ℤ) + delta).toNat = 0) →
        updateCartQuantity cart tid delta = cart.filter (fun i => decide (i.id ≠ tid)))
    ∧ ((∀ i ∈ cart, i.id = tid → 0 < ((i.quantity : ℤ) + delta).toNat) →
        ∀ k, (hk : k < cart.length) →
          (updateCartQuantity cart tid delta)[k]? =
            some (if cart[k].id = tid
                  then { cart[k] with quantity := ((cart[k].quantity : ℤ) + delta).toNat }
                  else cart[k])) := by
  refine ⟨update_noop cart tid delta hpos, ?_, update_removal cart tid delta hpos, ?_⟩
  · intro i hi
    rw [updateCartQuantity_eq] at hi
    have := (List.mem_filter.mp hi).2
    simpa using this
  · intro hp k hk
    rw [update_map cart tid delta hpos hp]
    rw [List.getElem?_map, List.getElem?_eq_getElem hk]
    rfl

theorem updateCartQuantity_spec_witness :
    updateCartQuantity
        [⟨"A", "Dosa", 50, 2⟩, ⟨"B", "Idli", 30, 1⟩] "A" (-2) =
      List.filter (fun i => decide (i.id ≠ "A"))
        [⟨"A", "Dosa", 50, 2⟩, ⟨"B", "Idli", 30, 1⟩] :=
  (updateCartQuantity_spec [⟨"A", "Dosa", 50, 2⟩, ⟨"B", "Idli", 30, 1⟩] "A" (-2)
      (by decide)).2.2.1 (by decide)

lemma addToCart_map_frame (cart : List CartItem) (m : MenuItem) :
    (cart.map (fun i => if i.id = m.id then { i with quantity := i.quantity + 1 } else i)).filter
        (fun i => decide (i.id ≠ m.id)) =
      cart.filter (fun i => decide (i.id ≠ m.id)) := by
  induction cart with
  | nil => rfl
  | cons i xs ih =>
    rw [List.map_cons, List.filter_cons, List.filter_cons]
    by_cases hid : i.id = m.id
    · simpa [hid] using ih
    · simpa [hid] using ih

lemma update_frame (cart : List CartItem) (tid : String) (delta : ℤ)
    (hpos : ∀ i ∈ cart, 0 < i.quantity) :
    (updateCartQuantity cart tid delta).filter (fun i => decide (i.id ≠ tid)) =
      cart.filter (fun i => decide (i.id ≠ tid)) := by
  rw [updateCartQuantity_eq, List.filter_filter]
  induction cart with
  | nil => rfl
  | cons i xs ih =>
    have hipos : 0 < i.quantity := hpos i (List.mem_cons_self i xs)
    have hpos' : ∀ j ∈ xs, 0 < j.quantity := fun j hj => hpos j (List.mem_cons_of_mem _ hj)
    rw [List.map_cons, List.filter_cons, List.filter_cons]
    by_cases hid : i.id = tid
    · simpa [updEntry_id, hid] using ih hpos'
    · rw [updEntry_of_ne hid]
      simpa [hid, hipos] using ih hpos'

/-- C10: `addToCart` and `updateCartQuantity` leave the entries whose id
differs from the targeted id untouched and in their original relative
order: filtering the result to the non-targeted ids gives back exactly the
corresponding filtering of the input cart (for `updateCartQuantity` under
the invariant that all quantities are positive). -/
theorem cart_ops_frame (cart : List CartItem) (m : MenuItem) (tid : String) (delta : ℤ)
    (hpos : ∀ i ∈ cart, 0 < i.quantity) :
    (addToCart cart m).filter (fun i => decide (i.id ≠ m.id)) =
      cart.filter (fun i => decide (i.id ≠ m.id))
    ∧ (updateCartQuantity cart tid delta).filter (fun i => decide (i.id ≠ tid)) =
      cart.filter (fun i => decide (i.id ≠ tid)) := by
  refine ⟨?_, update_frame cart tid delta hpos⟩
  unfold addToCart
  by_cases hfound : (cart.find? (fun i => i.id == m.id)).isSome
  · rw [if_pos hfound]
    exact addToCart_map_frame cart m
  · rw [if_neg hfound, List.filter_append]
    simp [CartItem.ofMenuItem]

theorem cart_ops_frame_witness :
    (addToCart [⟨"A", "Dosa", 50, 2⟩] ⟨"A", "Dosa", 50⟩).filter
        (fun i => decide (i.id ≠ "A")) =
      List.filter (fun i => decide (i.id ≠ "A")) [⟨"A", "Dosa", 50, 2⟩] :=
  (cart_ops_frame [⟨"A", "Dosa", 50, 2⟩] ⟨"A", "Dosa", 50⟩ "B" 1 (by decide)).1

theorem addToCart_spec_witness :
    (∀ i ∈ ([] : List CartItem), i.id ≠ "A") ∧
    addToCart (addToCart [] ⟨"A", "Dosa", 50⟩) ⟨"A", "Dosa", 50⟩ =
      [CartItem.ofMenuItem ⟨"A", "Dosa", 50⟩ 2] :=
  ⟨fun i hi => absurd hi (List.not_mem_nil i),
   (addToCart_spec [] ⟨"A", "Dosa", 50⟩).2.2⟩

/-! ## Order data model and pricing -/

/-- `OrderStatus` from `types`. Modelled from the spec: `types.ts` is not in
the sources; the spec's data model lists the enumerated variants `PENDING`,
`CONFIRMED`, `DELIVERED`, `CANCELLED`. -/
inductive OrderStatus where
  | PENDING
  | CONFIRMED
  | DELIVERED
  | CANCELLED
deriving DecidableEq, Repr

/-- The string value of an `OrderStatus` (the enum values interpolated into
`"Your order status has changed to ${order.status}"`). Modelled from the
spec's names for the variants. -/
def OrderStatus.value : OrderStatus → String
  | .PENDING => "PENDING"
  | .CONFIRMED => "CONFIRMED"
  | .DELIVERED => "DELIVERED"
  | .CANCELLED => "CANCELLED"

/-- `UserDetails` from `types` (modelled from the spec: `name`, `phone`,
`address` free-form fields supplied at checkout). -/
structure UserDetails where
  name : String
  phone : String
  address : String
deriving DecidableEq, Repr

/-- `UserProfile` from `types` (modelled from the spec: persisted identity of
the logged-in user, `name` and `phone`). -/
structure UserProfile where
  name : String
  phone : String
deriving DecidableEq, Repr

/-- `Order` from `types` (modelled from the spec's data model; the field set
matches the literal built in `handlePlaceOrder`, `src/App.tsx` 203–211). -/
structure Order where
  id : String
  items : List CartItem
  totalAmount : ℕ
  userDetails : UserDetails
  status : OrderStatus
  timestamp : ℕ
  paymentId : String
deriving DecidableEq, Repr

/-- Embedding of `Math.round(itemTotal * 0.05)` (`src/App.tsx` 199 and 317):
round-half-up of the exact rational `itemTotal / 20`, i.e. `(itemTotal + 10) / 20`
in `ℕ`. The agreement with `round` on `ℚ` is proved in `gstOf_eq_round`. -/
def gstOf (n : ℕ) : ℕ := (n + 10) / 20

/-- The totals computation of `handlePlaceOrder` (`src/App.tsx` 195–211),
followed by the `Order` literal it builds. `Store.getDeliveryFee()`,
`Store.generateOrderId()` and `Date.now()` are parameters. -/
def buildOrder (cart : List CartItem) (details : UserDetails) (paymentId : String)
    (deliveryFee : ℕ) (orderId : String) (now : ℕ) : Order :=
  let total := cart.foldl (fun acc i => acc + i.price * i.quantity) 0
  let itemTotal := total
  let platformFee := 5
  let gst := gstOf itemTotal
  let finalTotal := itemTotal + platformFee + deliveryFee + gst
  { id := orderId
    items := cart
    totalAmount := finalTotal
    userDetails := details
    status := OrderStatus.PENDING
    timestamp := now
    paymentId := paymentId }

/-- The totals computation of the CHECKOUT view (`src/App.tsx` 312–320): the
`total` passed to the `Checkout` component. A separate transcription of the
second call site, to be compared with the one inside `handlePlaceOrder`. -/
def checkoutFinalTotal (cart : List CartItem) (deliveryFee : ℕ) : ℕ :=
  let total := cart.foldl (fun acc i => acc + i.price * i.quantity) 0
  let itemTotal := total
  let platformFee := 5
  let gst := gstOf itemTotal
  itemTotal + platformFee + deliveryFee + gst

/-- The item total as the spec words it: the sum over entries of
`price × quantity`. -/
def itemTotalSpec (cart : List CartItem) : ℕ :=
  (cart.map (fun i => i.price * i.quantity)).sum

lemma foldl_price_eq (cart : List CartItem) (a : ℕ) :
    cart.foldl (fun acc i => acc + i.price * i.quantity) a = a + itemTotalSpec cart := by
  induction cart generalizing a with
  | nil => simp [itemTotalSpec]
  | cons i xs ih =>
    rw [List.foldl_cons, ih]
    simp [itemTotalSpec]
    ring

lemma gstOf_eq_round (n : ℕ) : (gstOf n : ℤ) = round ((n : ℚ) * (5 / 100)) := by
  have hx : (n : ℚ) * (5 / 100) + 1 / 2 = ((n + 10 : ℕ) : ℚ) / 20 := by
    push_cast
    ring
  rw [round_eq, hx, ← Int.natCast_floor_eq_floor (by positivity), Nat.floor_div_ofNat,
    Nat.floor_natCast]
  rfl

/-- C1: at both call sites — the CHECKOUT view and `handlePlaceOrder` — the
item total is the sum of `price × quantity` over the entries, the final
total is `itemTotal + 5 + deliveryFee + round(itemTotal * 0.05)` (the
rounding being round-half-up on the exact rational), and for the same cart
and the same delivery-fee lookup the total displayed at checkout equals the
`totalAmount` stored in the submitted order. -/
theorem pricing_spec (cart : List CartItem) (deliveryFee : ℕ) (details : UserDetails)
    (paymentId orderId : String) (now : ℕ) :
    cart.foldl (fun acc i => acc + i.price * i.quantity) 0 = itemTotalSpec cart
    ∧ checkoutFinalTotal cart deliveryFee =
        itemTotalSpec cart + 5 + deliveryFee + gstOf (itemTotalSpec cart)
    ∧ (gstOf (itemTotalSpec cart) : ℤ) = round ((itemTotalSpec cart : ℚ) * (5 / 100))
    ∧ (buildOrder cart details paymentId deliveryFee orderId now).totalAmount =
        checkoutFinalTotal cart deliveryFee := by
  have h0 : cart.foldl (fun acc i => acc + i.price * i.quantity) 0 = itemTotalSpec cart := by
    rw [foldl_price_eq]
    exact Nat.zero_add _
  refine ⟨h0, ?_, gstOf_eq_round _, ?_⟩
  · unfold checkoutFinalTotal
    rw [h0]
  · unfold buildOrder checkoutFinalTotal
    rfl

/-! ## Realtime status watcher -/

/-- A local notification as handed to `LocalNotifications.schedule`:
`title`, `body`, `id`, and the `schedule.at` instant (ms since epoch). -/
structure Notification where
  title : String
  body : String
  id : ℕ
  fireAt : ℕ
deriving DecidableEq, Repr

/-- `triggerStatusNotification` (`src/App.tsx` 74–110): the `title`/`body`
defaults, the `switch` on `order.status`, and the single-element
`notifications` array passed to `LocalNotifications.schedule`.
`Math.floor(Math.random() * 100000)` is the parameter `randId`; `Date.now()`
is `now` (the schedule instant is `now + 100`). -/
def triggerStatusNotification (order : Order) (randId now : ℕ) : List Notification :=
  let td : String × String :=
    match order.status with
    | OrderStatus.CONFIRMED =>
        ("Order Confirmed! 🍳", "We've received your order and are preparing it.")
    | OrderStatus.DELIVERED =>
        ("Order Delivered! 😋", "Your tiffins have been delivered. Enjoy your meal!")
    | OrderStatus.CANCELLED =>
        ("Order Cancelled ❌", "Your order was cancelled. Please contact support if this was a mistake.")
    | s => ("Order Update", "Your order status has changed to " ++ s.value)
  [{ title := td.1, body := td.2, id := randId, fireAt := now + 100 }]

/-- The realtime subscription callback (`src/App.tsx` 52–65): on an UPDATE
event for the `orders` table, the notifications scheduled are those of
`triggerStatusNotification` when the embedded phone matches the current
user's phone and the status changed, and none otherwise. -/
def onOrderUpdate (currentUser : UserProfile) (oldOrder newOrder : Order)
    (randId now : ℕ) : List Notification :=
  if newOrder.userDetails.phone = currentUser.phone then
    if newOrder.status ≠ oldOrder.status then triggerStatusNotification newOrder randId now
    else []
  else []

/-- The notification title the claim expects for each new status. -/
def claimedTitle : OrderStatus → String
  | OrderStatus.CONFIRMED => "Order Confirmed! 🍳"
  | OrderStatus.DELIVERED => "Order Delivered! 😋"
  | OrderStatus.CANCELLED => "Order Cancelled ❌"
  | _ => "Order Update"

/-- C2: a notification is dispatched iff the embedded phone matches the
current user's phone and the status changed; at most one notification is
ever scheduled per event, its title is the one keyed by the new status
(`claimedTitle`), and for any status other than CONFIRMED / DELIVERED /
CANCELLED the generic title and the generic
`"Your order status has changed to <status>"` body are used. -/
theorem realtime_watcher_spec (currentUser : UserProfile) (oldOrder newOrder : Order)
    (randId now : ℕ) :
    (onOrderUpdate currentUser oldOrder newOrder randId now ≠ [] ↔
      (newOrder.userDetails.phone = currentUser.phone ∧ newOrder.status ≠ oldOrder.status))
    ∧ (onOrderUpdate currentUser oldOrder newOrder randId now).length ≤ 1
    ∧ (∀ notif ∈ onOrderUpdate currentUser oldOrder newOrder randId now,
        notif.title = claimedTitle newOrder.status
        ∧ (newOrder.status ≠ OrderStatus.CONFIRMED → newOrder.status ≠ OrderStatus.DELIVERED →
            newOrder.status ≠ OrderStatus.CANCELLED →
            notif.title = "Order Update"
            ∧ notif.body = "Your order status has changed to " ++ newOrder.status.value)) := by
  unfold onOrderUpdate
  by_cases hphone : newOrder.userDetails.phone = currentUser.phone
  · by_cases hstat : newOrder.status ≠ oldOrder.status
    · rw [if_pos hphone, if_pos hstat]
      refine ⟨⟨fun _ => ⟨hphone, hstat⟩, fun _ => by simp [triggerStatusNotification]⟩, ?_, ?_⟩
      · cases newOrder.status <;> simp [triggerStatusNotification]
      · intro notif hn
        simp only [triggerStatusNotification] at hn
        cases h : newOrder.status <;>
          (rw [h] at hn; simp only [List.mem_singleton] at hn; subst hn;
           simp [claimedTitle, OrderStatus.value])
    · rw [if_pos hphone, if_neg hstat]
      refine ⟨⟨fun hne => absurd rfl hne, fun hc => absurd hc.2 hstat⟩, by simp, ?_⟩
      intro notif hn
      exact absurd hn (List.not_mem_nil notif)
  · rw [if_neg hphone]
    refine ⟨⟨fun hne => absurd rfl hne, fun hc => absurd hc.1 hphone⟩, by simp, ?_⟩
    intro notif hn
    exact absurd hn (List.not_mem_nil notif)

theorem realtime_watcher_spec_witness :
    onOrderUpdate ⟨"Asha", "123"⟩
        ⟨"O1", [], 235, ⟨"Asha", "123", "addr"⟩, OrderStatus.PENDING, 0, "p"⟩
        ⟨"O1", [], 235, ⟨"Asha", "123", "addr"⟩, OrderStatus.CONFIRMED, 0, "p"⟩ 7 0 ≠ [] :=
  (realtime_watcher_spec ⟨"Asha", "123"⟩
      ⟨"O1", [], 235, ⟨"Asha", "123", "addr"⟩, OrderStatus.PENDING, 0, "p"⟩
      ⟨"O1", [], 235, ⟨"Asha", "123", "addr"⟩, OrderStatus.CONFIRMED, 0, "p"⟩ 7 0).1.mpr
    (by decide)

/-! ## Order submission pipeline -/

/-- The React state touched by the cart and the submission pipeline:
the `cart` state, the list of persisted orders (what `Store.saveOrder`
accumulates), the persisted "last order" (`Store.saveLastOrder`), and the
current `view`. -/
structure AppModel where
  cart : List CartItem
  savedOrders : List Order
  lastOrder : List CartItem
  view : String
deriving DecidableEq, Repr

/-- A user-initiated cart mutation: `addToCart`, `updateCartQuantity`, or the
clearing `setCart([])`. -/
inductive CartOp where
  | add (item : MenuItem)
  | update (itemId : String) (delta : ℤ)
  | clear
deriving DecidableEq, Repr

def applyCartOp (cart : List CartItem) : CartOp → List CartItem
  | CartOp.add m => addToCart cart m
  | CartOp.update tid delta => updateCartQuantity cart tid delta
  | CartOp.clear => []

def applyCartOps (s : AppModel) (ops : List CartOp) : AppModel :=
  { s with cart := ops.foldl applyCartOp s.cart }

/-- The state effect of `handlePlaceOrder` (`src/App.tsx` 194–248): build the
order from the current cart, persist it and the last-order shortcut, clear
the cart and switch to the SUCCESS view. Returns the created order together
with the successor state. -/
def handlePlaceOrder (s : AppModel) (details : UserDetails) (paymentId : String)
    (deliveryFee : ℕ) (orderId : String) (now : ℕ) : Order × AppModel :=
  let newOrder := buildOrder s.cart details paymentId deliveryFee orderId now
  (newOrder,
    { cart := []
      savedOrders := newOrder :: s.savedOrders
      lastOrder := s.cart
      view := "SUCCESS" })

/-- C3: the order created by `handlePlaceOrder` is a value snapshot of the
cart at submission time: its `items` is the submitted cart, the whole order
record equals the one built at submission, and no sequence of subsequent
cart operations (including clearing) changes the persisted order in any
field. (The source's cart updates are copy-on-write — `map` with object
spread, `filter`, fresh array literals — which the immutable embedding
mirrors.) -/
theorem order_snapshot_spec (s : AppModel) (details : UserDetails) (paymentId : String)
    (deliveryFee : ℕ) (orderId : String) (now : ℕ) (ops : List CartOp) :
    (handlePlaceOrder s details paymentId deliveryFee orderId now).1.items = s.cart
    ∧ (applyCartOps (handlePlaceOrder s details paymentId deliveryFee orderId now).2
        ops).savedOrders =
      buildOrder s.cart details paymentId deliveryFee orderId now :: s.savedOrders
    ∧ (applyCartOps (handlePlaceOrder s details paymentId deliveryFee orderId now).2
        ops).savedOrders.head? =
      some (handlePlaceOrder s details paymentId deliveryFee orderId now).1 := by
  refine ⟨rfl, rfl, rfl⟩

/-- Side effects of `handlePlaceOrder`, in execution order. -/
inductive Ev where
  | saveOrderEv (order : Order)
  | saveLastOrderEv (cart : List CartItem)
  | hapticsEv
  | scheduleEv (n : Notification)
  | clearCartEv
  | setViewSuccessEv
  | openWhatsAppEv
deriving DecidableEq, Repr

/-- The 48-hour "miss you" re-engagement notification scheduled by
`handlePlaceOrder` (`src/App.tsx` 222–231): fixed title, body and the
hard-coded `id: 999`, at `Date.now() + 48 * 60 * 60 * 1000`. -/
def missYouNotification (now : ℕ) : Notification :=
  { title := "Miss you! 🥺"
    body := "It's been 2 days... Fresh tiffins are ready!"
    id := 999
    fireAt := now + 48 * 60 * 60 * 1000 }

/-- The sequence of effects performed by one run of `handlePlaceOrder`
(`src/App.tsx` 213–247). `hapticsThrows` / `scheduleThrows` model the
`Haptics.notification` and `LocalNotifications.schedule` calls raising: each
is wrapped in its own `try { … } catch {}`, so a raising call contributes no
effect but execution continues with the next statement. -/
def placeOrderTrace (s : AppModel) (details : UserDetails) (paymentId : String)
    (deliveryFee : ℕ) (orderId : String) (now : ℕ)
    (hapticsThrows scheduleThrows : Bool) : List Ev :=
  let newOrder := buildOrder s.cart details paymentId deliveryFee orderId now
  [Ev.saveOrderEv newOrder, Ev.saveLastOrderEv s.cart]
    ++ (if hapticsThrows then [] else [Ev.hapticsEv])
    ++ (if scheduleThrows then [] else [Ev.scheduleEv (missYouNotification now)])
    ++ [Ev.clearCartEv, Ev.setViewSuccessEv, Ev.openWhatsAppEv]

/-- C4: in every run of `handlePlaceOrder`, the two persistence calls
(`Store.saveOrder`, `Store.saveLastOrder`) are the first two effects — in
particular they happen strictly before the cart is cleared and before the
view is switched to SUCCESS — the cart-clear and success-transition do occur
later, and no further persistence call appears afterwards. -/
theorem persist_before_clear_spec (s : AppModel) (details : UserDetails) (paymentId : String)
    (deliveryFee : ℕ) (orderId : String) (now : ℕ) (hapticsThrows scheduleThrows : Bool) :
    ∃ rest,
      placeOrderTrace s details paymentId deliveryFee orderId now hapticsThrows scheduleThrows =
        Ev.saveOrderEv (buildOrder s.cart details paymentId deliveryFee orderId now)
          :: Ev.saveLastOrderEv s.cart :: rest
      ∧ Ev.clearCartEv ∈ rest ∧ Ev.setViewSuccessEv ∈ rest
      ∧ (∀ o, Ev.saveOrderEv o ∉ rest) ∧ (∀ c, Ev.saveLastOrderEv c ∉ rest) := by
  refine ⟨(if hapticsThrows then [] else [Ev.hapticsEv])
    ++ (if scheduleThrows then [] else [Ev.scheduleEv (missYouNotification now)])
    ++ [Ev.clearCartEv, Ev.setViewSuccessEv, Ev.openWhatsAppEv], rfl, ?_, ?_, ?_, ?_⟩
  · cases hapticsThrows <;> cases scheduleThrows <;> simp
  · cases hapticsThrows <;> cases scheduleThrows <;> simp
  · intro o
    cases hapticsThrows <;> cases scheduleThrows <;> simp
  · intro c
    cases hapticsThrows <;> cases scheduleThrows <;> simp

/-- C7: even when the haptic call and/or the 48-hour notification scheduling
throw, the rest of the flow still executes: every run of `handlePlaceOrder`
ends with clearing the cart, showing the success view, and the messaging
(WhatsApp) handoff, in that order. -/
theorem side_effect_tolerance_spec (s : AppModel) (details : UserDetails) (paymentId : String)
    (deliveryFee : ℕ) (orderId : String) (now : ℕ) (hapticsThrows scheduleThrows : Bool) :
    ∃ pre,
      placeOrderTrace s details paymentId deliveryFee orderId now hapticsThrows scheduleThrows =
        pre ++ [Ev.clearCartEv, Ev.setViewSuccessEv, Ev.openWhatsAppEv] := by
  refine ⟨[Ev.saveOrderEv (buildOrder s.cart details paymentId deliveryFee orderId now),
    Ev.saveLastOrderEv s.cart]
    ++ (if hapticsThrows then [] else [Ev.hapticsEv])
    ++ (if scheduleThrows then [] else [Ev.scheduleEv (missYouNotification now)]), ?_⟩
  unfold placeOrderTrace
  simp

/-- C8: the program does not keep scheduled-notification ids unique. The
48-hour re-engagement notification is scheduled with the hard-coded
`id: 999` on every order placement, so two placements (here at times 0 ms
and 3 600 000 ms, both inside the 48-hour window) produce two distinct
pending notifications carrying the same id — contradicting the required
uniqueness (and the source's own `// Unique ID` intent); the status
notification's `Math.floor(Math.random() * 100000)` id carries no
uniqueness guarantee either. -/
theorem notification_id_collision :
    (∀ now : ℕ, (missYouNotification now).id = 999)
    ∧ (missYouNotification 0).id = (missYouNotification 3600000).id
    ∧ missYouNotification 0 ≠ missYouNotification 3600000
    ∧ Ev.scheduleEv (missYouNotification 0) ∈
        placeOrderTrace ⟨[⟨"A", "Dosa", 50, 1⟩], [], [], "CHECKOUT"⟩
          ⟨"Asha", "123", "addr"⟩ "p1" 20 "O1" 0 false false
    ∧ Ev.scheduleEv (missYouNotification 3600000) ∈
        placeOrderTrace ⟨[⟨"B", "Idli", 30, 1⟩], [], [], "CHECKOUT"⟩
          ⟨"Asha", "123", "addr"⟩ "p2" 20 "O2" 3600000 false false := by
  refine ⟨fun now => rfl, rfl, by decide, ?_, ?_⟩ <;> simp [placeOrderTrace]

/-! ## Admin gate (tap-counter state machine) -/

/-- The state of the secret-admin gate: the `logoClickCount` React state and
the number of times the PIN prompt has been shown (`setShowPinModal(true)`
occurrences). -/
structure GateState where
  logoClickCount : ℕ
  promptCount : ℕ
deriving DecidableEq, Repr

/-- An input to the gate: a logo tap (`handleLogoClick`), or the 2-second
inactivity timer firing with no intervening tap. -/
inductive GateEv where
  | tap
  | timeout
deriving DecidableEq, Repr

/-- One step of the gate (`src/App.tsx` 138–154): a tap increments the
count, after which the effect on `logoClickCount` checks `count >= 5`,
shows the prompt and resets the count; the inactivity timer firing resets
the count to 0 and shows nothing. -/
def gateStep (s : GateState) : GateEv → GateState
  | GateEv.tap =>
    let c := s.logoClickCount + 1
    if 5 ≤ c then { logoClickCount := 0, promptCount := s.promptCount + 1 }
    else { s with logoClickCount := c }
  | GateEv.timeout => { s with logoClickCount := 0 }

def gateRun (s : GateState) (evs : List GateEv) : GateState :=
  evs.foldl gateStep s

/-- C9: from the initial state, 4 taps inside the 2-second window show no
prompt (count 4); the 5th tap inside the window shows exactly one prompt
and resets the count to 0; and whenever the 2-second inactivity timer fires,
the count resets to 0 with no prompt shown, from any state. -/
theorem admin_gate_spec :
    gateRun ⟨0, 0⟩ (List.replicate 4 GateEv.tap) = ⟨4, 0⟩
    ∧ gateRun ⟨0, 0⟩ (List.replicate 5 GateEv.tap) = ⟨0, 1⟩
    ∧ ∀ s : GateState,
        (gateStep s GateEv.timeout).logoClickCount = 0
        ∧ (gateStep s GateEv.timeout).promptCount = s.promptCount := by
  refine ⟨by decide, by decide, fun s => ⟨rfl, rfl⟩⟩
